import Mathlib

/-!
Verification of the batch_disclosure extraction pipeline.

The definitions below are a shallow embedding of the Python source:
strings are `List Char`, exceptions become `Option`/`Except`, and the
per-variant extractor pipelines (ASX annual / quarterly / investor,
SEC 10-Q) are modelled by explicit state passing.
-/

namespace BatchDisclosure

/-- Strings are modelled as character lists. -/
abbrev Str := List Char

/-! ## Python string primitives used by the extractors -/

/-- The whitespace class used by `str.strip` and the regex `\s`
(ASCII portion, which covers the pipeline's inputs). -/
def isPySpace (c : Char) : Bool :=
  c = ' ' || c = '\t' || c = '\n' || c = '\r' || c = '\x0b' || c = '\x0c'

/-- `str.strip()` on the left. -/
def pyStripLeft (s : Str) : Str := s.dropWhile isPySpace

/-- `str.strip()` on the right. -/
def pyStripRight (s : Str) : Str := (s.reverse.dropWhile isPySpace).reverse

/-- Python `str.strip()`. -/
def pyStrip (s : Str) : Str := pyStripRight (pyStripLeft s)

/-- Python `str.lower()` (ASCII range, which covers the enum values
and forecast keywords involved). -/
def pyLower (s : Str) : Str := s.map Char.toLower

/-- Python `str.upper()` (ASCII range). -/
def pyUpper (s : Str) : Str := s.map Char.toUpper

/-- Python substring containment `needle in hay`. -/
def hasSubSeq (needle : Str) : Str → Bool
  | [] => needle.isEmpty
  | h :: t => needle.isPrefixOf (h :: t) || hasSubSeq needle t

/-! ## Adaptive batcher (asx_annual.py 246-270, asx_quarterly.py 158-183,
sec_10q.py 157-178: the step table, ceil-division batch size, contiguous
slices, truncation to `num_batches`) -/

/-- The step table choosing `num_batches` from the candidate count. -/
def numBatches (n : Nat) : Nat :=
  if n ≤ 10 then 1
  else if n < 30 then 2
  else if n < 50 then 3
  else if n < 70 then 5
  else if n < 80 then 6
  else if n < 90 then 7
  else if n < 100 then 8
  else 9

/-- `[xs[i:i+b] for i in range(0, len(xs), b)]` for a positive step `b`.
The step-0 branch is unreachable: the one call site passes `max 1 _`. -/
def chunksOf : Nat → List α → List (List α)
  | _, [] => []
  | 0, _ :: _ => []
  | b + 1, x :: xs => ((x :: xs).take (b + 1)) :: chunksOf (b + 1) ((x :: xs).drop (b + 1))
termination_by _ l => l.length
decreasing_by
  simp only [List.length_drop, List.length_cons]
  omega

/-- The full batching step: `batch_size = max(1, ceil(n / num_batches))`,
contiguous slices, then `batches[:num_batches]`. -/
def makeBatches (cands : List α) : List (List α) :=
  let n := cands.length
  let k := numBatches n
  let bs := max 1 ((n + k - 1) / k)
  (chunksOf bs cands).take k

/-! ### Batcher lemmas -/

theorem chunksOf_flatten (b : Nat) : ∀ (l : List α), (chunksOf (b + 1) l).flatten = l
  | [] => by simp [chunksOf]
  | x :: xs => by
      rw [chunksOf]
      have ih := chunksOf_flatten b ((x :: xs).drop (b + 1))
      simp only [List.flatten_cons, ih]
      exact List.take_append_drop (b + 1) (x :: xs)
termination_by l => l.length
decreasing_by simp only [List.length_drop, List.length_cons]; omega

theorem chunksOf_length (b : Nat) :
    ∀ (l : List α), (chunksOf (b + 1) l).length = (l.length + b) / (b + 1)
  | [] => by simp [chunksOf, Nat.div_eq_of_lt (by omega : b < b + 1)]
  | x :: xs => by
      rw [chunksOf]
      have ih := chunksOf_length b ((x :: xs).drop (b + 1))
      simp only [List.length_cons, List.length_drop] at ih ⊢
      by_cases h : xs.length + 1 ≤ b + 1
      · have h0 : xs.length + 1 - (b + 1) = 0 := by omega
        rw [h0] at ih
        have hz : (0 + b) / (b + 1) = 0 := Nat.div_eq_of_lt (by omega)
        rw [ih, hz]
        have h1 : (xs.length + 1 + b) / (b + 1) = 1 := by
          apply Nat.div_eq_of_lt_le <;> omega
        omega
      · have h1 : xs.length + 1 - (b + 1) + b = xs.length := by omega
        rw [h1] at ih
        have h2 : xs.length + 1 + b = xs.length + (b + 1) := by omega
        rw [ih, h2, Nat.add_div_right _ (by omega)]
termination_by l => l.length
decreasing_by simp only [List.length_drop, List.length_cons]; omega

theorem chunksOf_mem_length_le (b : Nat) :
    ∀ (l : List α), ∀ c ∈ chunksOf (b + 1) l, c.length ≤ b + 1 ∧ c ≠ []
  | [] => by simp [chunksOf]
  | x :: xs => by
      rw [chunksOf]
      intro c hc
      rcases List.mem_cons.mp hc with h | h
      · subst h
        refine ⟨by simp, by simp⟩
      · exact chunksOf_mem_length_le b ((x :: xs).drop (b + 1)) c h
termination_by l => l.length
decreasing_by simp only [List.length_drop, List.length_cons]; omega

theorem chunksOf_sizes_mono (b : Nat) :
    ∀ (l : List α), List.Chain' (fun c d : List α => d.length ≤ c.length) (chunksOf (b + 1) l)
  | [] => by simp [chunksOf]
  | x :: xs => by
      rw [chunksOf]
      have ih := chunksOf_sizes_mono b ((x :: xs).drop (b + 1))
      apply List.chain'_cons'.mpr
      refine ⟨?_, ih⟩
      intro d hd
      have hmem : d ∈ chunksOf (b + 1) ((x :: xs).drop (b + 1)) := by
        cases hh : chunksOf (b + 1) ((x :: xs).drop (b + 1)) with
        | nil => rw [hh] at hd; simp at hd
        | cons y ys =>
            rw [hh] at hd
            simp only [List.head?_cons, Option.mem_def, Option.some.injEq] at hd
            exact hd ▸ List.mem_cons_self y ys
      have hle := (chunksOf_mem_length_le b _ d hmem).1
      have hne : (x :: xs).drop (b + 1) ≠ [] := by
        intro hnil
        rw [hnil] at hmem
        simp [chunksOf] at hmem
      have hlen : b + 1 < (x :: xs).length := by
        by_contra hcon
        push_neg at hcon
        exact hne (List.drop_eq_nil_of_le hcon)
      have htk : ((x :: xs).take (b + 1)).length = b + 1 := by
        simp only [List.length_take]
        omega
      omega
termination_by l => l.length
decreasing_by simp only [List.length_drop, List.length_cons]; omega

theorem numBatches_pos (n : Nat) : 0 < numBatches n := by
  unfold numBatches
  repeat' split
  all_goals omega

/-- `k * (k - 1) < n` for the table's `k = numBatches n` whenever `n ≥ 1`;
this is what makes slice truncation lossless and the batch count exact. -/
theorem numBatches_sq_lt (n : Nat) (hn : 1 ≤ n) :
    numBatches n * (numBatches n - 1) < n := by
  unfold numBatches
  repeat' split
  all_goals omega

theorem makeBatches_flatten (l : List α) : (makeBatches l).flatten = l := by
  unfold makeBatches
  set n := l.length with hn
  set k := numBatches n with hk
  have hkpos : 0 < k := numBatches_pos n
  set bs := max 1 ((n + k - 1) / k) with hbs
  have hbspos : 0 < bs := le_max_left _ _
  obtain ⟨b, hb⟩ : ∃ b, bs = b + 1 := ⟨bs - 1, by omega⟩
  -- the slice count never exceeds k, so `take k` drops nothing
  have hcount : (chunksOf bs l).length ≤ k := by
    rw [hb, chunksOf_length, ← hn]
    have hceil : n ≤ k * ((n + k - 1) / k) := by
      have hdm := Nat.div_add_mod (n + k - 1) k
      have hmod := Nat.mod_lt (n + k - 1) hkpos
      omega
    have hnk : n ≤ k * bs := by
      have : (n + k - 1) / k ≤ bs := by rw [hbs]; exact le_max_right _ _
      calc n ≤ k * ((n + k - 1) / k) := hceil
        _ ≤ k * bs := Nat.mul_le_mul_left _ this
    have hdiv : (n + b) / (b + 1) < k + 1 := by
      rw [Nat.div_lt_iff_lt_mul (by omega)]
      rw [hb] at hnk
      have hq : (k + 1) * (b + 1) = k * (b + 1) + b + 1 := by ring
      omega
    omega
  rw [List.take_of_length_le hcount, hb, chunksOf_flatten]

theorem makeBatches_count (l : List α) (hne : l ≠ []) :
    (makeBatches l).length = numBatches l.length := by
  unfold makeBatches
  set n := l.length with hn
  have hn1 : 1 ≤ n := by
    rw [hn]
    exact List.length_pos.mpr hne
  set k := numBatches n with hk
  have hkpos : 0 < k := numBatches_pos n
  have hsq : k * (k - 1) < n := numBatches_sq_lt n hn1
  set bs := max 1 ((n + k - 1) / k) with hbs
  have hbspos : 0 < bs := le_max_left _ _
  obtain ⟨b, hb⟩ : ∃ b, bs = b + 1 := ⟨bs - 1, by omega⟩
  have hceil_le : k * ((n + k - 1) / k) ≤ n + k - 1 := by
    have := Nat.div_mul_le_self (n + k - 1) k
    calc k * ((n + k - 1) / k) = (n + k - 1) / k * k := Nat.mul_comm _ _
      _ ≤ n + k - 1 := this
  have hceil_ge : n ≤ k * ((n + k - 1) / k) := by
    have hdm := Nat.div_add_mod (n + k - 1) k
    have hmod := Nat.mod_lt (n + k - 1) hkpos
    omega
  have hceil_pos : 0 < (n + k - 1) / k := by
    rcases Nat.eq_zero_or_pos ((n + k - 1) / k) with h0 | h
    · rw [h0] at hceil_ge; omega
    · exact h
  have hbseq : bs = (n + k - 1) / k := by
    rw [hbs]
    omega
  -- `bs ≥ k` because `n > k * (k - 1)`
  have hbsk : k ≤ bs := by
    rw [hbseq, Nat.le_div_iff_mul_le hkpos]
    have hq : k * k = k * (k - 1) + k := by
      have h1 : k - 1 + 1 = k := by omega
      calc k * k = k * (k - 1 + 1) := by rw [h1]
        _ = k * (k - 1) + k := by ring
    omega
  have hkbs : k * bs ≤ n + k - 1 := by rw [hbseq]; exact hceil_le
  have hnkbs : n ≤ k * bs := by rw [hbseq]; exact hceil_ge
  have hcount : (chunksOf bs l).length = (n + b) / (b + 1) := by
    rw [hb, chunksOf_length, ← hn]
  -- exact count: `k ≤ ceil(n / bs) ≤ k`
  have hup : (n + b) / (b + 1) ≤ k := by
    have hlt : (n + b) / (b + 1) < k + 1 := by
      rw [Nat.div_lt_iff_lt_mul (by omega)]
      rw [hb] at hnkbs
      have hq : (k + 1) * (b + 1) = k * (b + 1) + b + 1 := by ring
      omega
    omega
  have hlo : k ≤ (n + b) / (b + 1) := by
    rw [Nat.le_div_iff_mul_le (by omega)]
    rw [hb] at hkbs hbsk
    omega
  have hcnt_eq : (chunksOf bs l).length = k := by omega
  rw [List.length_take, hcnt_eq, min_self]

theorem makeBatches_no_empty (l : List α) :
    ∀ btch ∈ makeBatches l, btch ≠ [] := by
  unfold makeBatches
  intro btch hb
  have hmem := List.mem_of_mem_take hb
  set bs := max 1 ((l.length + numBatches l.length - 1) / numBatches l.length) with hbs
  obtain ⟨b, hb'⟩ : ∃ b, bs = b + 1 := ⟨bs - 1, by have : 0 < bs := le_max_left _ _; omega⟩
  rw [hb'] at hmem
  exact (chunksOf_mem_length_le b l btch hmem).2

theorem makeBatches_sizes_mono (l : List α) :
    List.Chain' (fun c d : List α => d.length ≤ c.length) (makeBatches l) := by
  have heq : makeBatches l =
      (chunksOf (max 1 ((l.length + numBatches l.length - 1) / numBatches l.length)) l).take
        (numBatches l.length) := rfl
  rw [heq]
  set bs := max 1 ((l.length + numBatches l.length - 1) / numBatches l.length) with hbs
  obtain ⟨b, hb'⟩ : ∃ b, bs = b + 1 := ⟨bs - 1, by have : 0 < bs := le_max_left _ _; omega⟩
  rw [hb']
  exact List.Chain'.take (chunksOf_sizes_mono b l) _

/-- C1 (counterexample): at candidate count `n = 0` the batching step yields
zero batches, while the step table prescribes one batch for `n ≤ 10`; the
claim's "produces exactly the table's batch count" for every `n ≥ 0` fails. -/
theorem c1_counterexample :
    (makeBatches ([] : List Nat)).length = 0 ∧ numBatches 0 = 1 := by
  refine ⟨?_, rfl⟩
  simp [makeBatches, chunksOf]

/-- C1 (amended): for every candidate list, the adaptive batching step
(step-table batch count, `batch_size = max(1, ceil(n / num_batches))`,
contiguous slicing, truncation to `num_batches` slices) partitions the list
contiguously in original order (the concatenation of the batches is the
original list, hence the sizes sum to `n`); for every nonempty list it
produces exactly the table's batch count (at `n = 0` it produces no batches);
no batch is empty; and the batch sizes are non-increasing. -/
theorem c1_adaptive_batching (l : List α) :
    (makeBatches l).flatten = l ∧
    (l ≠ [] → (makeBatches l).length = numBatches l.length) ∧
    (∀ btch ∈ makeBatches l, btch ≠ []) ∧
    List.Chain' (fun c d : List α => d.length ≤ c.length) (makeBatches l) :=
  ⟨makeBatches_flatten l, makeBatches_count l, makeBatches_no_empty l,
    makeBatches_sizes_mono l⟩

/-- Witness for C1 at the concrete candidate list `[0, ..., 11]` (n = 12,
table count 2). -/
theorem c1_witness :
    (makeBatches [0, 1, 2, 3, 4, 5, 6, 7, 8, 9, 10, 11]).length =
      numBatches 12 :=
  (c1_adaptive_batching [0, 1, 2, 3, 4, 5, 6, 7, 8, 9, 10, 11]).2.1 (by decide)

/-! ## Data model (models/enums.py, models/catalyst_disclosure.py) -/

/-- `Impact` enum, values "HIGH" / "MED" / "LOW". -/
inductive Impact | HIGH | MED | LOW
deriving DecidableEq, Repr

/-- `Tone` enum, values "positive" / "neutral" / "cautious". -/
inductive Tone | POSITIVE | NEUTRAL | CAUTIOUS
deriving DecidableEq, Repr

/-- `ForecastType` enum. -/
inductive ForecastType
  | INTENT | TIMING | CONTRACTUAL | GUIDANCE | REGULATORY
  | STRATEGY | HINTS | MILESTONES | DEALS
deriving DecidableEq, Repr

/-- `FilingType` enum. -/
inductive FilingType | ASX_ANNUAL | ASX_QUARTERLY | ASX_INVESTOR | SEC_10Q
deriving DecidableEq, Repr

/-- `Tone(value)`: exact enum-value lookup; an unlisted value raises
(`none`). -/
def toneOfValue? (s : Str) : Option Tone :=
  if s = "positive".toList then some .POSITIVE
  else if s = "neutral".toList then some .NEUTRAL
  else if s = "cautious".toList then some .CAUTIOUS
  else none

/-- `Impact(value)`: exact enum-value lookup. -/
def impactOfValue? (s : Str) : Option Impact :=
  if s = "HIGH".toList then some .HIGH
  else if s = "MED".toList then some .MED
  else if s = "LOW".toList then some .LOW
  else none

/-- `Entity` pydantic model. -/
structure Entity where
  type : Str
  value : Str
  text : Str
deriving DecidableEq, Repr

/-- Line-break characters recognised by `str.splitlines()`. -/
def pyLineBreak (c : Char) : Bool :=
  c = '\n' || c = '\r' || c = '\x0b' || c = '\x0c' ||
  c = '\x1c' || c = '\x1d' || c = '\x1e' || c = '\x85' ||
  c = '\u2028' || c = '\u2029'

/-- Split a string at every character satisfying `p` (separator dropped). -/
def splitOnPred (p : Char → Bool) : Str → List Str
  | [] => [[]]
  | c :: rest =>
    if p c then [] :: splitOnPred p rest
    else
      match splitOnPred p rest with
      | [] => [[c]]
      | l :: ls => (c :: l) :: ls

/-- The `clean_text` pydantic validator: `None`/empty becomes `""`; other
input is split into lines, each stripped, blank lines dropped, and the
rest joined with single spaces. -/
def cleanText (v : Option Str) : Str :=
  match v with
  | none => []
  | some s =>
    if s.isEmpty then []
    else
      List.intercalate [' ']
        (((splitOnPred pyLineBreak s).map pyStrip).filter (fun ln => !ln.isEmpty))

/-- First-occurrence deduplication, skipping anything already in `seen`. -/
def dedupeFirstAux (seen : List Str) : List Str → List Str
  | [] => []
  | x :: xs =>
    if seen.contains x then dedupeFirstAux seen xs
    else x :: dedupeFirstAux (x :: seen) xs

/-- `list(dict.fromkeys(v))`: first-occurrence deduplication (the
`dedupe_categories` validator). -/
def dedupeFirst (l : List Str) : List Str := dedupeFirstAux [] l

/-- `CatalystDisclosure` record. -/
structure CatalystDisclosure where
  doc_id : Str
  exchange : Str
  filing_type : FilingType
  filing_date : Option Str
  source_file : Option Str
  sentence_id : Str
  text : Str
  forward_looking : Bool
  forecast_type : ForecastType
  tone : Tone
  impact : Impact
  score : Int
  categories_matched : List Str
  entities : List Entity
  flag : Option Str
deriving DecidableEq, Repr

/-- `CatalystDisclosure(...)` construction: runs the `clean_text` and
`dedupe_categories` validators and enforces `score` in `[1, 10]`
(`Field(..., ge=1, le=10)`); out-of-range raises (`none`). -/
def mkCatalystDisclosure (docId exchange : Str) (ftype : FilingType)
    (filingDate : Option Str) (srcFile : Option Str) (sid : Str)
    (textRaw : Option Str) (fl : Bool) (forecast : ForecastType)
    (tone : Tone) (impact : Impact) (score : Int) (cats : List Str)
    (ents : List Entity) : Option CatalystDisclosure :=
  if 1 ≤ score ∧ score ≤ 10 then
    some
      { doc_id := docId, exchange := exchange, filing_type := ftype,
        filing_date := filingDate, source_file := srcFile,
        sentence_id := sid, text := cleanText textRaw, forward_looking := fl,
        forecast_type := forecast, tone := tone, impact := impact,
        score := score, categories_matched := dedupeFirst cats,
        entities := ents, flag := some ("ok".toList) }
  else none

/-! ## Raw classification items and Python coercions -/

/-- The value found under the "score" key of a raw JSON item. -/
inductive JsonScore
  | num (n : Int)
  | str (s : Str)
  | null
  | other
deriving DecidableEq, Repr

/-- Digit-run value, or `none` when the run is empty or not all digits. -/
def digitsVal? (s : Str) : Option Nat :=
  if s.isEmpty then none
  else if s.all Char.isDigit then
    some (s.foldl (fun a c => a * 10 + (c.toNat - 48)) 0)
  else none

/-- Python `int(str)`: strips whitespace, allows one sign, then digits;
anything else raises (`none`). -/
def pyIntOfStr? (s : Str) : Option Int :=
  match pyStrip s with
  | '+' :: rest => (digitsVal? rest).map (fun n => (n : Int))
  | '-' :: rest => (digitsVal? rest).map (fun n => -(n : Int))
  | t => (digitsVal? t).map (fun n => (n : Int))

/-- `int(x)` on a raw score value: integers pass through, numeric strings
are coerced, `None` and other shapes raise (`none`). -/
def pyScoreInt? : JsonScore → Option Int
  | .num n => some n
  | .str s => pyIntOfStr? s
  | .null => none
  | .other => none

/-- One raw JSON item from the classification stage. An outer `none` means
the key is absent; for string-valued keys an inner `none` means the key is
present with JSON `null`. -/
structure RawItem where
  text : Option (Option Str) := none
  tone : Option (Option Str) := none
  impact : Option (Option Str) := none
  forecast_type : Option (Option Str) := none
  score : Option JsonScore := none
  entities : Option (List Str) := none
  categories_matched : Option (List Str) := none
deriving DecidableEq, Repr

/-- `item.get("text", "")`. -/
def rawText (item : RawItem) : Option Str :=
  match item.text with
  | none => some []
  | some v => v

/-- `f"s{global_idx}"`. -/
def sId (i : Nat) : Str := 's' :: (Nat.repr i).toList

/-! ## Forecast-type normalization rules (per variant) -/

/-- asx_annual.py 295-307: ordered substring rules on the lower-cased
`forecast_type` string. -/
def forecastFromRawAnnual (raw : Str) : ForecastType :=
  if hasSubSeq ("contract".toList) raw then .CONTRACTUAL
  else if hasSubSeq ("regul".toList) raw then .REGULATORY
  else if hasSubSeq ("time".toList) raw || hasSubSeq ("sched".toList) raw then .TIMING
  else if hasSubSeq ("guidance".toList) raw then .GUIDANCE
  else if hasSubSeq ("strategy".toList) raw then .STRATEGY
  else .HINTS

/-- asx_quarterly.py 209-217: the shorter rule chain. -/
def forecastFromRawQuarterly (raw : Str) : ForecastType :=
  if hasSubSeq ("contract".toList) raw then .CONTRACTUAL
  else if hasSubSeq ("regul".toList) raw then .REGULATORY
  else if hasSubSeq ("time".toList) raw || hasSubSeq ("sched".toList) raw then .TIMING
  else .HINTS

/-- sec_10q.py 202-210: identical rule chain in the SEC extractor. -/
def forecastFromRawSec (raw : Str) : ForecastType :=
  if hasSubSeq ("contract".toList) raw then .CONTRACTUAL
  else if hasSubSeq ("regul".toList) raw then .REGULATORY
  else if hasSubSeq ("time".toList) raw || hasSubSeq ("sched".toList) raw then .TIMING
  else .HINTS

/-- asx_investor.py CATEGORY_MAP. -/
def investorCategoryMap (cat : Str) : Option ForecastType :=
  if cat = "Intent Verbs".toList then some .INTENT
  else if cat = "Timeline".toList then some .TIMING
  else if cat = "Guidance".toList then some .GUIDANCE
  else if cat = "Milestones".toList then some .MILESTONES
  else if cat = "Deals".toList then some .DEALS
  else if cat = "Strategy".toList then some .STRATEGY
  else none

/-- asx_investor.py 232-237: forecast type from the first
`categories_matched` entry, `STRATEGY` when absent or unknown. -/
def investorForecast (cats : List Str) : ForecastType :=
  match cats with
  | [] => .STRATEGY
  | c :: _ => (investorCategoryMap c).getD .STRATEGY

/-! ## Per-variant item normalization (the body of each extractor's
`for item in items:` loop; any raised exception drops the item: `none`) -/

/-- asx_annual.py 293-331: normalize one raw item of the ASX annual
extractor. `Tone(...)`/`Impact(...)` are exact-value lookups;
`int(...)` coerces the score; `mkCatalystDisclosure` applies the pydantic
validators. -/
def buildAnnualItem (docId : Str) (filingDate : Option Str) (srcFile : Str)
    (gidx : Nat) (item : RawItem) : Option CatalystDisclosure :=
  match item.forecast_type.getD (some []) with
  | none => none
  | some ftRaw =>
    let forecast := forecastFromRawAnnual (pyLower ftRaw)
    match item.tone.getD (some ("neutral".toList)) with
    | none => none
    | some toneStr =>
      match toneOfValue? toneStr with
      | none => none
      | some tone =>
        match item.impact.getD (some ("MED".toList)) with
        | none => none
        | some impactStr =>
          match impactOfValue? impactStr with
          | none => none
          | some impact =>
            match pyScoreInt? (item.score.getD (JsonScore.num 5)) with
            | none => none
            | some sc =>
              mkCatalystDisclosure docId ("ASX".toList) .ASX_ANNUAL
                filingDate (some srcFile) (sId gidx) (rawText item) true
                forecast tone impact sc (item.categories_matched.getD [])
                ((item.entities.getD []).map (fun e => ⟨"entity".toList, e, e⟩))

/-- asx_quarterly.py 207-241: normalize one raw item of the ASX quarterly
extractor (no guidance/strategy rules, `categories_matched=[]`). -/
def buildQuarterlyItem (docId : Str) (filingDate : Option Str) (srcFile : Str)
    (gidx : Nat) (item : RawItem) : Option CatalystDisclosure :=
  match item.forecast_type.getD (some []) with
  | none => none
  | some ftRaw =>
    let forecast := forecastFromRawQuarterly (pyLower ftRaw)
    match item.tone.getD (some ("neutral".toList)) with
    | none => none
    | some toneStr =>
      match toneOfValue? toneStr with
      | none => none
      | some tone =>
        match item.impact.getD (some ("MED".toList)) with
        | none => none
        | some impactStr =>
          match impactOfValue? impactStr with
          | none => none
          | some impact =>
            match pyScoreInt? (item.score.getD (JsonScore.num 5)) with
            | none => none
            | some sc =>
              mkCatalystDisclosure docId ("ASX".toList) .ASX_QUARTERLY
                filingDate (some srcFile) (sId gidx) (rawText item) true
                forecast tone impact sc []
                ((item.entities.getD []).map (fun e => ⟨"entity".toList, e, e⟩))

/-- sec_10q.py 200-233: normalize one raw item of the SEC extractor. -/
def buildSecItem (docId : Str) (filingDate : Option Str) (srcFile : Str)
    (gidx : Nat) (item : RawItem) : Option CatalystDisclosure :=
  match item.forecast_type.getD (some []) with
  | none => none
  | some ftRaw =>
    let forecast := forecastFromRawSec (pyLower ftRaw)
    match item.tone.getD (some ("neutral".toList)) with
    | none => none
    | some toneStr =>
      match toneOfValue? toneStr with
      | none => none
      | some tone =>
        match item.impact.getD (some ("MED".toList)) with
        | none => none
        | some impactStr =>
          match impactOfValue? impactStr with
          | none => none
          | some impact =>
            match pyScoreInt? (item.score.getD (JsonScore.num 5)) with
            | none => none
            | some sc =>
              mkCatalystDisclosure docId ("SEC".toList) .SEC_10Q
                filingDate (some srcFile) (sId gidx) (rawText item) true
                forecast tone impact sc []
                ((item.entities.getD []).map (fun e => ⟨"entity".toList, e, e⟩))

/-- asx_investor.py 230-267: normalize one raw item of the investor
extractor. The forecast type comes from the first `categories_matched`
entry; tone is lower-cased and impact upper-cased before the enum call. -/
def buildInvestorItem (docId : Str) (filingDate : Option Str) (srcFile : Str)
    (gidx : Nat) (item : RawItem) : Option CatalystDisclosure :=
  let cats := item.categories_matched.getD []
  let forecast := investorForecast cats
  match item.tone.getD (some ("neutral".toList)) with
  | none => none
  | some toneStr =>
    match toneOfValue? (pyLower toneStr) with
    | none => none
    | some tone =>
      match item.impact.getD (some ("MED".toList)) with
      | none => none
      | some impactStr =>
        match impactOfValue? (pyUpper impactStr) with
        | none => none
        | some impact =>
          match pyScoreInt? (item.score.getD (JsonScore.num 5)) with
          | none => none
          | some sc =>
            mkCatalystDisclosure docId ("ASX".toList) .ASX_INVESTOR
              filingDate (some srcFile) (sId gidx) (rawText item) true
              forecast tone impact sc cats
              ((item.entities.getD []).map (fun e => ⟨"entity".toList, e, e⟩))

/-! ## The accumulation loop shared by all four extractors: on success the
record is appended and `global_idx` advances; a failed item is skipped. -/

/-- The `for item in items:` loop, threading `global_idx`. -/
def processItems (build : Nat → RawItem → Option CatalystDisclosure)
    (gidx : Nat) : List RawItem → List CatalystDisclosure × Nat
  | [] => ([], gidx)
  | it :: rest =>
    match build gidx it with
    | some r =>
      let p := processItems build (gidx + 1) rest
      (r :: p.1, p.2)
    | none => processItems build gidx rest

/-- The `for batch_num, batch in enumerate(batches):` loop, given the
parsed item list produced for each batch (a failed or unparseable batch
contributes `[]`). -/
def processBatches (build : Nat → RawItem → Option CatalystDisclosure)
    (gidx : Nat) : List (List RawItem) → List CatalystDisclosure × Nat
  | [] => ([], gidx)
  | b :: bs =>
    let p := processItems build gidx b
    let q := processBatches build p.2 bs
    (p.1 ++ q.1, q.2)

/-! ## The `run` safety wrapper and error taxonomy
(base_extractor.py 15-19, 128-146) -/

/-- The exceptions that can escape `extract`. -/
inductive ExtractorError
  | invalidFiling (msg : Str)
  | extraction (msg : Str)
  | other (msg : Str)
deriving Repr

/-- `BaseExtractor.run`: evaluate the wrapped `extract` and map every
raised `InvalidFilingError`, `ExtractionError` or other exception to the
empty record list. -/
def runWrapper (extractResult : Except ExtractorError (List CatalystDisclosure)) :
    List CatalystDisclosure :=
  match extractResult with
  | .ok records => records
  | .error (.invalidFiling _) => []
  | .error (.extraction _) => []
  | .error (.other _) => []

/-- `BaseExtractor._read_file` on a missing path raises
`InvalidFilingError` (modelled over an abstract file system). -/
def readFileCheck (fs : Str → Option Str) (path : Str) : Except ExtractorError Str :=
  match fs path with
  | none => .error (.invalidFiling path)
  | some content => .ok content

/-- C2: `run()` always returns a list, never an escaped exception: every
raised `InvalidFilingError` (e.g. unreadable/missing document),
`ExtractionError` (exhausted LLM retries) or any other exception maps to
the empty list; a successful `extract` is passed through unchanged; and an
`extract` that begins by reading a missing document yields the empty list
whatever would have followed. -/
theorem c2_run_error_containment :
    (∀ e : ExtractorError, runWrapper (.error e) = []) ∧
    (∀ rs : List CatalystDisclosure, runWrapper (.ok rs) = rs) ∧
    (∀ (fs : Str → Option Str) (p : Str)
        (k : Str → Except ExtractorError (List CatalystDisclosure)),
        fs p = none → runWrapper (readFileCheck fs p >>= k) = []) := by
  refine ⟨fun e => ?_, fun rs => rfl, fun fs p k hmiss => ?_⟩
  · cases e <;> rfl
  · unfold readFileCheck
    rw [hmiss]
    rfl

/-- Witness for C2: a missing document path under an empty file system. -/
theorem c2_witness :
    runWrapper (readFileCheck (fun _ => none) ("missing.pdf".toList) >>=
      fun _ => Except.ok []) = [] :=
  c2_run_error_containment.2.2 (fun _ => none) ("missing.pdf".toList)
    (fun _ => Except.ok []) rfl

/-! ### Score-validation lemmas -/

theorem mkCatalystDisclosure_score_bounds
    {d e : Str} {ft : FilingType} {fd sf : Option Str} {sid : Str}
    {tr : Option Str} {fl : Bool} {fo : ForecastType} {t : Tone} {i : Impact}
    {sc : Int} {cats : List Str} {ents : List Entity} {r : CatalystDisclosure}
    (h : mkCatalystDisclosure d e ft fd sf sid tr fl fo t i sc cats ents = some r) :
    1 ≤ r.score ∧ r.score ≤ 10 := by
  unfold mkCatalystDisclosure at h
  split at h
  case isTrue hcond =>
    rw [Option.some.injEq] at h
    subst h
    simpa using hcond
  case isFalse _ => exact Option.noConfusion h

theorem mkCatalystDisclosure_score_out
    {d e : Str} {ft : FilingType} {fd sf : Option Str} {sid : Str}
    {tr : Option Str} {fl : Bool} {fo : ForecastType} {t : Tone} {i : Impact}
    {sc : Int} {cats : List Str} {ents : List Entity}
    (h : sc < 1 ∨ 10 < sc) :
    mkCatalystDisclosure d e ft fd sf sid tr fl fo t i sc cats ents = none := by
  unfold mkCatalystDisclosure
  rw [if_neg (show ¬(1 ≤ sc ∧ sc ≤ 10) by omega)]

theorem buildAnnualItem_score_bounds {d : Str} {fd : Option Str} {sf : Str}
    {g : Nat} {it : RawItem} {r : CatalystDisclosure}
    (h : buildAnnualItem d fd sf g it = some r) : 1 ≤ r.score ∧ r.score ≤ 10 := by
  unfold buildAnnualItem at h
  repeat' split at h
  all_goals first
    | exact Option.noConfusion h
    | exact mkCatalystDisclosure_score_bounds h

theorem buildQuarterlyItem_score_bounds {d : Str} {fd : Option Str} {sf : Str}
    {g : Nat} {it : RawItem} {r : CatalystDisclosure}
    (h : buildQuarterlyItem d fd sf g it = some r) : 1 ≤ r.score ∧ r.score ≤ 10 := by
  unfold buildQuarterlyItem at h
  repeat' split at h
  all_goals first
    | exact Option.noConfusion h
    | exact mkCatalystDisclosure_score_bounds h

theorem buildInvestorItem_score_bounds {d : Str} {fd : Option Str} {sf : Str}
    {g : Nat} {it : RawItem} {r : CatalystDisclosure}
    (h : buildInvestorItem d fd sf g it = some r) : 1 ≤ r.score ∧ r.score ≤ 10 := by
  unfold buildInvestorItem at h
  repeat' split at h
  all_goals first
    | exact Option.noConfusion h
    | exact mkCatalystDisclosure_score_bounds h

theorem buildSecItem_score_bounds {d : Str} {fd : Option Str} {sf : Str}
    {g : Nat} {it : RawItem} {r : CatalystDisclosure}
    (h : buildSecItem d fd sf g it = some r) : 1 ≤ r.score ∧ r.score ≤ 10 := by
  unfold buildSecItem at h
  repeat' split at h
  all_goals first
    | exact Option.noConfusion h
    | exact mkCatalystDisclosure_score_bounds h

theorem buildAnnualItem_score_invalid {d : Str} {fd : Option Str} {sf : Str}
    {g : Nat} {it : RawItem}
    (h : pyScoreInt? (it.score.getD (JsonScore.num 5)) = none ∨
      ∃ n, pyScoreInt? (it.score.getD (JsonScore.num 5)) = some n ∧ (n < 1 ∨ 10 < n)) :
    buildAnnualItem d fd sf g it = none := by
  unfold buildAnnualItem
  repeat' split
  all_goals try rfl
  case _ sc heq =>
    rcases h with hnone | ⟨n, hn, hout⟩
    · rw [hnone] at heq
      exact Option.noConfusion heq
    · rw [hn] at heq
      rw [Option.some.injEq] at heq
      subst heq
      exact mkCatalystDisclosure_score_out hout

theorem processItems_cons_none
    {bld : Nat → RawItem → Option CatalystDisclosure} {g : Nat}
    {it : RawItem} {rest : List RawItem} (h : bld g it = none) :
    processItems bld g (it :: rest) = processItems bld g rest := by
  simp [processItems, h]

/-- C4: every emitted record (any variant) has an integer score in
`[1, 10]`; an out-of-range or non-numeric raw score makes the single item
fail construction (and a failed item leaves the list and counter of the
surrounding loop untouched); a missing score key behaves exactly as the
default score 5 and is kept. -/
theorem c4_score_invariant :
    (∀ (d : Str) (fd : Option Str) (sf : Str) (g : Nat) (it : RawItem) r,
       buildAnnualItem d fd sf g it = some r → 1 ≤ r.score ∧ r.score ≤ 10) ∧
    (∀ (d : Str) (fd : Option Str) (sf : Str) (g : Nat) (it : RawItem) r,
       buildQuarterlyItem d fd sf g it = some r → 1 ≤ r.score ∧ r.score ≤ 10) ∧
    (∀ (d : Str) (fd : Option Str) (sf : Str) (g : Nat) (it : RawItem) r,
       buildInvestorItem d fd sf g it = some r → 1 ≤ r.score ∧ r.score ≤ 10) ∧
    (∀ (d : Str) (fd : Option Str) (sf : Str) (g : Nat) (it : RawItem) r,
       buildSecItem d fd sf g it = some r → 1 ≤ r.score ∧ r.score ≤ 10) ∧
    (∀ (d : Str) (fd : Option Str) (sf : Str) (g : Nat) (it : RawItem) (n : Int),
       it.score = some (JsonScore.num n) → n < 1 ∨ 10 < n →
       buildAnnualItem d fd sf g it = none) ∧
    (∀ (d : Str) (fd : Option Str) (sf : Str) (g : Nat) (it : RawItem) (s : Str),
       it.score = some (JsonScore.str s) → pyIntOfStr? s = none →
       buildAnnualItem d fd sf g it = none) ∧
    (∀ (d : Str) (fd : Option Str) (sf : Str) (g : Nat) (it : RawItem),
       it.score = none →
       buildAnnualItem d fd sf g it =
         buildAnnualItem d fd sf g { it with score := some (JsonScore.num 5) }) ∧
    (∀ (bld : Nat → RawItem → Option CatalystDisclosure) (g : Nat)
       (it : RawItem) (rest : List RawItem), bld g it = none →
       processItems bld g (it :: rest) = processItems bld g rest) := by
  refine ⟨fun d fd sf g it r h => buildAnnualItem_score_bounds h,
    fun d fd sf g it r h => buildQuarterlyItem_score_bounds h,
    fun d fd sf g it r h => buildInvestorItem_score_bounds h,
    fun d fd sf g it r h => buildSecItem_score_bounds h,
    fun d fd sf g it n hsc hout => ?_,
    fun d fd sf g it s hsc hbad => ?_,
    fun d fd sf g it hsc => ?_,
    fun bld g it rest h => processItems_cons_none h⟩
  · exact buildAnnualItem_score_invalid
      (Or.inr ⟨n, by rw [hsc]; rfl, hout⟩)
  · exact buildAnnualItem_score_invalid
      (Or.inl (by rw [hsc]; simpa [pyScoreInt?] using hbad))
  · simp [buildAnnualItem, hsc, rawText]

/-- Witness for C4 at concrete raw items with scores 0, 11 and no score. -/
theorem c4_witness :
    buildAnnualItem [] none [] 1 { score := some (JsonScore.num 0) } = none ∧
    buildAnnualItem [] none [] 1 { score := some (JsonScore.num 11) } = none ∧
    buildAnnualItem [] none [] 1 { } =
      buildAnnualItem [] none [] 1 { score := some (JsonScore.num 5) } :=
  ⟨c4_score_invariant.2.2.2.2.1 [] none [] 1 _ 0 rfl (by omega),
   c4_score_invariant.2.2.2.2.1 [] none [] 1 _ 11 rfl (by omega),
   c4_score_invariant.2.2.2.2.2.2.1 [] none [] 1 _ rfl⟩

/-! ### Forecast-type rules: specification-side formulation -/

/-- Spec-side: an ordered rule list evaluated top to bottom, first match
wins, with a default when nothing matches. A rule fires when any of its
substrings occurs in the (lower-cased) raw string. -/
def specOrderedRules (rules : List (List Str × ForecastType))
    (dflt : ForecastType) (raw : Str) : ForecastType :=
  match rules.find? (fun rule => rule.1.any (fun kw => hasSubSeq kw raw)) with
  | some rule => rule.2
  | none => dflt

/-- Spec-side rule table for the annual variant. -/
def specAnnualRules : List (List Str × ForecastType) :=
  [(["contract".toList], .CONTRACTUAL),
   (["regul".toList], .REGULATORY),
   (["time".toList, "sched".toList], .TIMING),
   (["guidance".toList], .GUIDANCE),
   (["strategy".toList], .STRATEGY)]

/-- Spec-side rule table for the quarterly and SEC 10-Q variants. -/
def specBaseRules : List (List Str × ForecastType) :=
  [(["contract".toList], .CONTRACTUAL),
   (["regul".toList], .REGULATORY),
   (["time".toList, "sched".toList], .TIMING)]

/-- Spec-side: the investor variant derives the forecast type from the
first `categories_matched` entry via the category table, defaulting to
STRATEGY when no category is present or the category is unknown. -/
def specInvestorForecast (cats : List Str) : ForecastType :=
  match cats.head? with
  | none => .STRATEGY
  | some c =>
    match investorCategoryMap c with
    | some ft => ft
    | none => .STRATEGY

/-- C5: each variant's free-text `forecast_type` normalization equals the
ordered first-match-wins substring rules of the specification (annual has
the two extra guidance/strategy rules; quarterly and SEC stop after the
timing rule and default to HINTS); "regulatory approval expected" maps to
REGULATORY and "binding contract" to CONTRACTUAL; and the investor variant
derives the type from the first `categories_matched` entry with STRATEGY
as default. -/
theorem c5_forecast_mapping :
    (∀ raw, forecastFromRawAnnual raw =
       specOrderedRules specAnnualRules ForecastType.HINTS raw) ∧
    (∀ raw, forecastFromRawQuarterly raw =
       specOrderedRules specBaseRules ForecastType.HINTS raw) ∧
    (∀ raw, forecastFromRawSec raw =
       specOrderedRules specBaseRules ForecastType.HINTS raw) ∧
    forecastFromRawAnnual (pyLower ("regulatory approval expected".toList)) =
      ForecastType.REGULATORY ∧
    forecastFromRawAnnual (pyLower ("binding contract".toList)) =
      ForecastType.CONTRACTUAL ∧
    forecastFromRawQuarterly (pyLower ("regulatory approval expected".toList)) =
      ForecastType.REGULATORY ∧
    forecastFromRawSec (pyLower ("binding contract".toList)) =
      ForecastType.CONTRACTUAL ∧
    (∀ cats, investorForecast cats = specInvestorForecast cats) := by
  refine ⟨fun raw => ?_, fun raw => ?_, fun raw => ?_,
    by decide, by decide, by decide, by decide, fun cats => ?_⟩
  · unfold forecastFromRawAnnual specOrderedRules specAnnualRules
    by_cases h1 : hasSubSeq ("contract".toList) raw <;>
      by_cases h2 : hasSubSeq ("regul".toList) raw <;>
        by_cases h3 : hasSubSeq ("time".toList) raw <;>
          by_cases h4 : hasSubSeq ("sched".toList) raw <;>
            by_cases h5 : hasSubSeq ("guidance".toList) raw <;>
              by_cases h6 : hasSubSeq ("strategy".toList) raw <;>
                simp_all [List.find?]
  · unfold forecastFromRawQuarterly specOrderedRules specBaseRules
    by_cases h1 : hasSubSeq ("contract".toList) raw <;>
      by_cases h2 : hasSubSeq ("regul".toList) raw <;>
        by_cases h3 : hasSubSeq ("time".toList) raw <;>
          by_cases h4 : hasSubSeq ("sched".toList) raw <;>
            simp_all [List.find?]
  · unfold forecastFromRawSec specOrderedRules specBaseRules
    by_cases h1 : hasSubSeq ("contract".toList) raw <;>
      by_cases h2 : hasSubSeq ("regul".toList) raw <;>
        by_cases h3 : hasSubSeq ("time".toList) raw <;>
          by_cases h4 : hasSubSeq ("sched".toList) raw <;>
            simp_all [List.find?]
  · cases cats with
    | nil => rfl
    | cons c cs =>
        cases hc : investorCategoryMap c <;>
          simp [investorForecast, specInvestorForecast, hc]

/-! ### Tone/impact coercion lemmas -/

theorem mkCatalystDisclosure_eq_some
    {d e : Str} {ft : FilingType} {fd sf : Option Str} {sid : Str}
    {tr : Option Str} {fl : Bool} {fo : ForecastType} {t : Tone} {i : Impact}
    {sc : Int} {cats : List Str} {ents : List Entity} {r : CatalystDisclosure}
    (h : mkCatalystDisclosure d e ft fd sf sid tr fl fo t i sc cats ents = some r) :
    r = { doc_id := d, exchange := e, filing_type := ft, filing_date := fd,
          source_file := sf, sentence_id := sid, text := cleanText tr,
          forward_looking := fl, forecast_type := fo, tone := t, impact := i,
          score := sc, categories_matched := dedupeFirst cats, entities := ents,
          flag := some ("ok".toList) } := by
  unfold mkCatalystDisclosure at h
  split at h
  case isTrue _ =>
    rw [Option.some.injEq] at h
    exact h.symm
  case isFalse _ => exact Option.noConfusion h

theorem buildAnnualItem_tone_drop {d : Str} {fd : Option Str} {sf : Str}
    {g : Nat} {it : RawItem} {s : Str}
    (hit : it.tone = some (some s)) (hval : toneOfValue? s = none) :
    buildAnnualItem d fd sf g it = none := by
  unfold buildAnnualItem
  rw [hit]
  simp only [Option.getD_some, hval]
  split <;> rfl

theorem buildQuarterlyItem_tone_drop {d : Str} {fd : Option Str} {sf : Str}
    {g : Nat} {it : RawItem} {s : Str}
    (hit : it.tone = some (some s)) (hval : toneOfValue? s = none) :
    buildQuarterlyItem d fd sf g it = none := by
  unfold buildQuarterlyItem
  rw [hit]
  simp only [Option.getD_some, hval]
  split <;> rfl

theorem buildSecItem_tone_drop {d : Str} {fd : Option Str} {sf : Str}
    {g : Nat} {it : RawItem} {s : Str}
    (hit : it.tone = some (some s)) (hval : toneOfValue? s = none) :
    buildSecItem d fd sf g it = none := by
  unfold buildSecItem
  rw [hit]
  simp only [Option.getD_some, hval]
  split <;> rfl

theorem buildInvestorItem_tone_drop {d : Str} {fd : Option Str} {sf : Str}
    {g : Nat} {it : RawItem} {s : Str}
    (hit : it.tone = some (some s)) (hval : toneOfValue? (pyLower s) = none) :
    buildInvestorItem d fd sf g it = none := by
  unfold buildInvestorItem
  rw [hit]
  simp only [Option.getD_some, hval]

theorem buildAnnualItem_impact_drop {d : Str} {fd : Option Str} {sf : Str}
    {g : Nat} {it : RawItem} {s : Str}
    (hit : it.impact = some (some s)) (hval : impactOfValue? s = none) :
    buildAnnualItem d fd sf g it = none := by
  unfold buildAnnualItem
  rw [hit]
  simp only [Option.getD_some, hval]
  repeat' split
  all_goals rfl

theorem buildQuarterlyItem_impact_drop {d : Str} {fd : Option Str} {sf : Str}
    {g : Nat} {it : RawItem} {s : Str}
    (hit : it.impact = some (some s)) (hval : impactOfValue? s = none) :
    buildQuarterlyItem d fd sf g it = none := by
  unfold buildQuarterlyItem
  rw [hit]
  simp only [Option.getD_some, hval]
  repeat' split
  all_goals rfl

theorem buildSecItem_impact_drop {d : Str} {fd : Option Str} {sf : Str}
    {g : Nat} {it : RawItem} {s : Str}
    (hit : it.impact = some (some s)) (hval : impactOfValue? s = none) :
    buildSecItem d fd sf g it = none := by
  unfold buildSecItem
  rw [hit]
  simp only [Option.getD_some, hval]
  repeat' split
  all_goals rfl

theorem buildInvestorItem_impact_drop {d : Str} {fd : Option Str} {sf : Str}
    {g : Nat} {it : RawItem} {s : Str}
    (hit : it.impact = some (some s)) (hval : impactOfValue? (pyUpper s) = none) :
    buildInvestorItem d fd sf g it = none := by
  unfold buildInvestorItem
  rw [hit]
  simp only [Option.getD_some, hval]
  repeat' split
  all_goals rfl

theorem buildAnnualItem_tone_eq {d : Str} {fd : Option Str} {sf : Str}
    {g : Nat} {it : RawItem} {s : Str} {r : CatalystDisclosure}
    (hit : it.tone = some (some s)) (h : buildAnnualItem d fd sf g it = some r) :
    toneOfValue? s = some r.tone := by
  unfold buildAnnualItem at h
  rw [hit] at h
  simp only [Option.getD_some] at h
  repeat' split at h
  all_goals try exact Option.noConfusion h
  have hr := mkCatalystDisclosure_eq_some h
  subst hr
  assumption

theorem buildAnnualItem_impact_eq {d : Str} {fd : Option Str} {sf : Str}
    {g : Nat} {it : RawItem} {s : Str} {r : CatalystDisclosure}
    (hit : it.impact = some (some s)) (h : buildAnnualItem d fd sf g it = some r) :
    impactOfValue? s = some r.impact := by
  unfold buildAnnualItem at h
  rw [hit] at h
  simp only [Option.getD_some] at h
  repeat' split at h
  all_goals try exact Option.noConfusion h
  have hr := mkCatalystDisclosure_eq_some h
  subst hr
  assumption

theorem buildQuarterlyItem_tone_eq {d : Str} {fd : Option Str} {sf : Str}
    {g : Nat} {it : RawItem} {s : Str} {r : CatalystDisclosure}
    (hit : it.tone = some (some s)) (h : buildQuarterlyItem d fd sf g it = some r) :
    toneOfValue? s = some r.tone := by
  unfold buildQuarterlyItem at h
  rw [hit] at h
  simp only [Option.getD_some] at h
  repeat' split at h
  all_goals try exact Option.noConfusion h
  have hr := mkCatalystDisclosure_eq_some h
  subst hr
  assumption

theorem buildQuarterlyItem_impact_eq {d : Str} {fd : Option Str} {sf : Str}
    {g : Nat} {it : RawItem} {s : Str} {r : CatalystDisclosure}
    (hit : it.impact = some (some s)) (h : buildQuarterlyItem d fd sf g it = some r) :
    impactOfValue? s = some r.impact := by
  unfold buildQuarterlyItem at h
  rw [hit] at h
  simp only [Option.getD_some] at h
  repeat' split at h
  all_goals try exact Option.noConfusion h
  have hr := mkCatalystDisclosure_eq_some h
  subst hr
  assumption

theorem buildSecItem_tone_eq {d : Str} {fd : Option Str} {sf : Str}
    {g : Nat} {it : RawItem} {s : Str} {r : CatalystDisclosure}
    (hit : it.tone = some (some s)) (h : buildSecItem d fd sf g it = some r) :
    toneOfValue? s = some r.tone := by
  unfold buildSecItem at h
  rw [hit] at h
  simp only [Option.getD_some] at h
  repeat' split at h
  all_goals try exact Option.noConfusion h
  have hr := mkCatalystDisclosure_eq_some h
  subst hr
  assumption

theorem buildSecItem_impact_eq {d : Str} {fd : Option Str} {sf : Str}
    {g : Nat} {it : RawItem} {s : Str} {r : CatalystDisclosure}
    (hit : it.impact = some (some s)) (h : buildSecItem d fd sf g it = some r) :
    impactOfValue? s = some r.impact := by
  unfold buildSecItem at h
  rw [hit] at h
  simp only [Option.getD_some] at h
  repeat' split at h
  all_goals try exact Option.noConfusion h
  have hr := mkCatalystDisclosure_eq_some h
  subst hr
  assumption

theorem buildInvestorItem_tone_eq {d : Str} {fd : Option Str} {sf : Str}
    {g : Nat} {it : RawItem} {s : Str} {r : CatalystDisclosure}
    (hit : it.tone = some (some s)) (h : buildInvestorItem d fd sf g it = some r) :
    toneOfValue? (pyLower s) = some r.tone := by
  unfold buildInvestorItem at h
  rw [hit] at h
  simp only [Option.getD_some] at h
  repeat' split at h
  all_goals try exact Option.noConfusion h
  have hr := mkCatalystDisclosure_eq_some h
  subst hr
  assumption

theorem buildInvestorItem_impact_eq {d : Str} {fd : Option Str} {sf : Str}
    {g : Nat} {it : RawItem} {s : Str} {r : CatalystDisclosure}
    (hit : it.impact = some (some s)) (h : buildInvestorItem d fd sf g it = some r) :
    impactOfValue? (pyUpper s) = some r.impact := by
  unfold buildInvestorItem at h
  rw [hit] at h
  simp only [Option.getD_some] at h
  repeat' split at h
  all_goals try exact Option.noConfusion h
  have hr := mkCatalystDisclosure_eq_some h
  subst hr
  assumption

/-- C6 (counterexample): in the ASX annual variant the tone string
"Positive" — a valid enum value up to case — is NOT coerced: `Tone("Positive")`
raises and the item is dropped, contradicting the claim that every variant
coerces tone and impact case-insensitively. -/
theorem c6_counterexample :
    buildAnnualItem [] none [] 1
      { tone := some (some ("Positive".toList)) } = none := by
  decide

/-- C6 (amended): only the investor variant coerces case-insensitively —
it lower-cases tone and upper-cases impact before the enum lookup, so
"Positive"/"positive"/"NEUTRAL" and "high"/"HIGH" all coerce there, and a
value invalid even after that normalization drops only that item; the
annual, quarterly and SEC variants pass the raw string to the enum
constructor, so they accept exactly the enum values ("positive"/"neutral"/
"cautious", "HIGH"/"MED"/"LOW") and any other value — including case
variants — raises a construction error that drops only that item. -/
theorem c6_tone_impact_coercion :
    (∀ (d : Str) (fd : Option Str) (sf : Str) (g : Nat) (it : RawItem) (s : Str),
       it.tone = some (some s) → toneOfValue? s = none →
       buildAnnualItem d fd sf g it = none) ∧
    (∀ (d : Str) (fd : Option Str) (sf : Str) (g : Nat) (it : RawItem) (s : Str),
       it.tone = some (some s) → toneOfValue? s = none →
       buildQuarterlyItem d fd sf g it = none) ∧
    (∀ (d : Str) (fd : Option Str) (sf : Str) (g : Nat) (it : RawItem) (s : Str),
       it.tone = some (some s) → toneOfValue? s = none →
       buildSecItem d fd sf g it = none) ∧
    (∀ (d : Str) (fd : Option Str) (sf : Str) (g : Nat) (it : RawItem)
       (s : Str) (r : CatalystDisclosure),
       it.tone = some (some s) → buildAnnualItem d fd sf g it = some r →
       toneOfValue? s = some r.tone) ∧
    (∀ (d : Str) (fd : Option Str) (sf : Str) (g : Nat) (it : RawItem)
       (s : Str) (r : CatalystDisclosure),
       it.impact = some (some s) → buildAnnualItem d fd sf g it = some r →
       impactOfValue? s = some r.impact) ∧
    (∀ (d : Str) (fd : Option Str) (sf : Str) (g : Nat) (it : RawItem) (s : Str),
       it.tone = some (some s) → toneOfValue? (pyLower s) = none →
       buildInvestorItem d fd sf g it = none) ∧
    (∀ (d : Str) (fd : Option Str) (sf : Str) (g : Nat) (it : RawItem)
       (s : Str) (r : CatalystDisclosure),
       it.tone = some (some s) → buildInvestorItem d fd sf g it = some r →
       toneOfValue? (pyLower s) = some r.tone) ∧
    (∀ (d : Str) (fd : Option Str) (sf : Str) (g : Nat) (it : RawItem)
       (s : Str) (r : CatalystDisclosure),
       it.impact = some (some s) → buildInvestorItem d fd sf g it = some r →
       impactOfValue? (pyUpper s) = some r.impact) ∧
    (∀ (d : Str) (fd : Option Str) (sf : Str) (g : Nat) (it : RawItem) (s : Str),
       it.impact = some (some s) → impactOfValue? s = none →
       buildAnnualItem d fd sf g it = none) ∧
    (∀ (d : Str) (fd : Option Str) (sf : Str) (g : Nat) (it : RawItem) (s : Str),
       it.impact = some (some s) → impactOfValue? s = none →
       buildQuarterlyItem d fd sf g it = none) ∧
    (∀ (d : Str) (fd : Option Str) (sf : Str) (g : Nat) (it : RawItem)
       (s : Str) (r : CatalystDisclosure),
       it.impact = some (some s) → buildQuarterlyItem d fd sf g it = some r →
       impactOfValue? s = some r.impact) ∧
    (∀ (d : Str) (fd : Option Str) (sf : Str) (g : Nat) (it : RawItem) (s : Str),
       it.impact = some (some s) → impactOfValue? s = none →
       buildSecItem d fd sf g it = none) ∧
    (∀ (d : Str) (fd : Option Str) (sf : Str) (g : Nat) (it : RawItem)
       (s : Str) (r : CatalystDisclosure),
       it.impact = some (some s) → buildSecItem d fd sf g it = some r →
       impactOfValue? s = some r.impact) ∧
    (∀ (d : Str) (fd : Option Str) (sf : Str) (g : Nat) (it : RawItem)
       (s : Str) (r : CatalystDisclosure),
       it.tone = some (some s) → buildQuarterlyItem d fd sf g it = some r →
       toneOfValue? s = some r.tone) ∧
    (∀ (d : Str) (fd : Option Str) (sf : Str) (g : Nat) (it : RawItem)
       (s : Str) (r : CatalystDisclosure),
       it.tone = some (some s) → buildSecItem d fd sf g it = some r →
       toneOfValue? s = some r.tone) ∧
    (∀ (d : Str) (fd : Option Str) (sf : Str) (g : Nat) (it : RawItem) (s : Str),
       it.impact = some (some s) → impactOfValue? (pyUpper s) = none →
       buildInvestorItem d fd sf g it = none) ∧
    toneOfValue? (pyLower ("Positive".toList)) = some Tone.POSITIVE ∧
    toneOfValue? (pyLower ("NEUTRAL".toList)) = some Tone.NEUTRAL ∧
    impactOfValue? (pyUpper ("high".toList)) = some Impact.HIGH ∧
    toneOfValue? ("Positive".toList) = none ∧
    impactOfValue? ("high".toList) = none :=
  ⟨fun _ _ _ _ _ _ hit hval => buildAnnualItem_tone_drop hit hval,
   fun _ _ _ _ _ _ hit hval => buildQuarterlyItem_tone_drop hit hval,
   fun _ _ _ _ _ _ hit hval => buildSecItem_tone_drop hit hval,
   fun _ _ _ _ _ _ _ hit h => buildAnnualItem_tone_eq hit h,
   fun _ _ _ _ _ _ _ hit h => buildAnnualItem_impact_eq hit h,
   fun _ _ _ _ _ _ hit hval => buildInvestorItem_tone_drop hit hval,
   fun _ _ _ _ _ _ _ hit h => buildInvestorItem_tone_eq hit h,
   fun _ _ _ _ _ _ _ hit h => buildInvestorItem_impact_eq hit h,
   fun _ _ _ _ _ _ hit hval => buildAnnualItem_impact_drop hit hval,
   fun _ _ _ _ _ _ hit hval => buildQuarterlyItem_impact_drop hit hval,
   fun _ _ _ _ _ _ _ hit h => buildQuarterlyItem_impact_eq hit h,
   fun _ _ _ _ _ _ hit hval => buildSecItem_impact_drop hit hval,
   fun _ _ _ _ _ _ _ hit h => buildSecItem_impact_eq hit h,
   fun _ _ _ _ _ _ _ hit h => buildQuarterlyItem_tone_eq hit h,
   fun _ _ _ _ _ _ _ hit h => buildSecItem_tone_eq hit h,
   fun _ _ _ _ _ _ hit hval => buildInvestorItem_impact_drop hit hval,
   by decide, by decide, by decide, by decide, by decide⟩

/-- Witness for C6 at concrete items: the annual variant drops the
case-variant tone "Cautious", the quarterly variant drops the
case-variant impact "high", and the investor variant drops a tone that
is invalid even after lower-casing. -/
theorem c6_witness :
    buildAnnualItem [] none [] 1
      { tone := some (some ("Cautious".toList)) } = none ∧
    buildQuarterlyItem [] none [] 1
      { impact := some (some ("high".toList)) } = none ∧
    buildInvestorItem [] none [] 1
      { tone := some (some ("NOISE".toList)) } = none :=
  ⟨c6_tone_impact_coercion.1 [] none [] 1 _ ("Cautious".toList) rfl (by decide),
   c6_tone_impact_coercion.2.2.2.2.2.2.2.2.2.1 [] none [] 1 _ ("high".toList)
     rfl (by decide),
   c6_tone_impact_coercion.2.2.2.2.2.1 [] none [] 1 _ ("NOISE".toList) rfl
     (by decide)⟩

/-! ### Sentence-id sequencing lemmas -/

theorem buildAnnualItem_sid {d : Str} {fd : Option Str} {sf : Str}
    {g : Nat} {it : RawItem} {r : CatalystDisclosure}
    (h : buildAnnualItem d fd sf g it = some r) : r.sentence_id = sId g := by
  unfold buildAnnualItem at h
  repeat' split at h
  all_goals try exact Option.noConfusion h
  have hr := mkCatalystDisclosure_eq_some h
  subst hr
  rfl

theorem buildSecItem_sid {d : Str} {fd : Option Str} {sf : Str}
    {g : Nat} {it : RawItem} {r : CatalystDisclosure}
    (h : buildSecItem d fd sf g it = some r) : r.sentence_id = sId g := by
  unfold buildSecItem at h
  repeat' split at h
  all_goals try exact Option.noConfusion h
  have hr := mkCatalystDisclosure_eq_some h
  subst hr
  rfl

theorem processItems_ids
    (bld : Nat → RawItem → Option CatalystDisclosure)
    (hbld : ∀ g it r, bld g it = some r → r.sentence_id = sId g) :
    ∀ (g : Nat) (items : List RawItem),
      (processItems bld g items).2 = g + (processItems bld g items).1.length ∧
      (processItems bld g items).1.map (fun r => r.sentence_id) =
        (List.range (processItems bld g items).1.length).map (fun i => sId (g + i)) := by
  intro g items
  induction items generalizing g with
  | nil => simp [processItems]
  | cons it rest ih =>
    cases hb : bld g it with
    | none => simpa [processItems, hb] using ih g
    | some r =>
      have hsid := hbld g it r hb
      have ihg := ih (g + 1)
      simp only [processItems, hb]
      refine ⟨by simp [ihg.1]; omega, ?_⟩
      simp only [List.map_cons, hsid, ihg.2, List.length_cons]
      rw [List.range_succ_eq_map]
      simp only [List.map_cons, List.map_map, Nat.add_zero]
      congr 1
      apply List.map_congr_left
      intro i _
      simp only [Function.comp_apply]
      congr 1
      omega

theorem processBatches_ids
    (bld : Nat → RawItem → Option CatalystDisclosure)
    (hbld : ∀ g it r, bld g it = some r → r.sentence_id = sId g) :
    ∀ (g : Nat) (bs : List (List RawItem)),
      (processBatches bld g bs).2 = g + (processBatches bld g bs).1.length ∧
      (processBatches bld g bs).1.map (fun r => r.sentence_id) =
        (List.range (processBatches bld g bs).1.length).map (fun i => sId (g + i)) := by
  intro g bs
  induction bs generalizing g with
  | nil => simp [processBatches]
  | cons b rest ih =>
    have hi := processItems_ids bld hbld g b
    have ihr := ih (processItems bld g b).2
    simp only [processBatches]
    refine ⟨?_, ?_⟩
    · simp only [List.length_append]
      omega
    · rw [List.map_append, hi.2, ihr.2, List.length_append, List.range_add,
        List.map_append, List.map_map]
      congr 1
      apply List.map_congr_left
      intro i _
      simp only [Function.comp_apply]
      congr 1
      omega

/-- The raw item of the end-to-end scenario: `forecast_type="guidance"`,
`score=5` (tone/impact/text left to their defaults). -/
def guidanceItem : RawItem :=
  { forecast_type := some (some ("guidance".toList)),
    score := some (JsonScore.num 5) }

/-- C7: in the annual and SEC pipelines the emitted records carry
`sentence_id` exactly `s1, s2, ..., sN` in emission order — the global
counter advances only on successful construction, so dropped items and
failed batches leave no gaps; in particular a run whose classification
stage keeps all 12 candidates (two batches of six "guidance" items)
yields exactly 12 records `s1..s12`, all with forecast type GUIDANCE. -/
theorem c7_sentence_ids :
    (∀ (d : Str) (fd : Option Str) (sf : Str) (batches : List (List RawItem)),
       (processBatches (buildAnnualItem d fd sf) 1 batches).1.map
           (fun r => r.sentence_id) =
         (List.range
             (processBatches (buildAnnualItem d fd sf) 1 batches).1.length).map
           (fun i => sId (1 + i))) ∧
    (∀ (d : Str) (fd : Option Str) (sf : Str) (batches : List (List RawItem)),
       (processBatches (buildSecItem d fd sf) 1 batches).1.map
           (fun r => r.sentence_id) =
         (List.range
             (processBatches (buildSecItem d fd sf) 1 batches).1.length).map
           (fun i => sId (1 + i))) ∧
    (processBatches (buildAnnualItem ("doc".toList) none ("a.pdf".toList)) 1
        [List.replicate 6 guidanceItem, List.replicate 6 guidanceItem]).1.map
        (fun r => (r.sentence_id, r.forecast_type)) =
      (List.range 12).map (fun i => (sId (1 + i), ForecastType.GUIDANCE)) ∧
    (List.range 12).map (fun i => sId (1 + i)) =
      ["s1".toList, "s2".toList, "s3".toList, "s4".toList, "s5".toList,
       "s6".toList, "s7".toList, "s8".toList, "s9".toList, "s10".toList,
       "s11".toList, "s12".toList] := by
  refine ⟨fun d fd sf batches => ?_, fun d fd sf batches => ?_, ?_, by decide⟩
  · exact (processBatches_ids _ (fun g it r h => buildAnnualItem_sid h) 1 batches).2
  · exact (processBatches_ids _ (fun g it r h => buildSecItem_sid h) 1 batches).2
  · decide

/-- C10: missing keys never drop an item — they get silent defaults at
normalization: a wholly empty item `{}` still yields a record (text "",
tone neutral, impact MED, score 5, no categories, no entities, HINTS
forecast) in both the annual and SEC variants; a missing tone/impact/text
key behaves exactly like the default value ("neutral" / "MED" / "");
a `null` text value is emitted as ""; and multi-line text is normalized
to a single-space-joined string. -/
theorem c10_silent_defaults :
    (∀ (d : Str) (fd : Option Str) (sf : Str) (g : Nat),
       buildAnnualItem d fd sf g {} = some
         { doc_id := d, exchange := "ASX".toList, filing_type := .ASX_ANNUAL,
           filing_date := fd, source_file := some sf, sentence_id := sId g,
           text := [], forward_looking := true, forecast_type := .HINTS,
           tone := .NEUTRAL, impact := .MED, score := 5,
           categories_matched := [], entities := [],
           flag := some ("ok".toList) }) ∧
    (∀ (d : Str) (fd : Option Str) (sf : Str) (g : Nat),
       buildSecItem d fd sf g {} = some
         { doc_id := d, exchange := "SEC".toList, filing_type := .SEC_10Q,
           filing_date := fd, source_file := some sf, sentence_id := sId g,
           text := [], forward_looking := true, forecast_type := .HINTS,
           tone := .NEUTRAL, impact := .MED, score := 5,
           categories_matched := [], entities := [],
           flag := some ("ok".toList) }) ∧
    (∀ (d : Str) (fd : Option Str) (sf : Str) (g : Nat) (it : RawItem),
       it.tone = none →
       buildAnnualItem d fd sf g it =
         buildAnnualItem d fd sf g { it with tone := some (some ("neutral".toList)) }) ∧
    (∀ (d : Str) (fd : Option Str) (sf : Str) (g : Nat) (it : RawItem),
       it.impact = none →
       buildAnnualItem d fd sf g it =
         buildAnnualItem d fd sf g { it with impact := some (some ("MED".toList)) }) ∧
    (∀ (d : Str) (fd : Option Str) (sf : Str) (g : Nat) (it : RawItem),
       it.text = none →
       buildAnnualItem d fd sf g it =
         buildAnnualItem d fd sf g { it with text := some (some []) }) ∧
    (∀ (d : Str) (fd : Option Str) (sf : Str) (g : Nat) (it : RawItem),
       it.entities = none →
       buildAnnualItem d fd sf g it =
         buildAnnualItem d fd sf g { it with entities := some [] }) ∧
    (∀ (d : Str) (fd : Option Str) (sf : Str) (g : Nat) (it : RawItem),
       it.categories_matched = none →
       buildAnnualItem d fd sf g it =
         buildAnnualItem d fd sf g { it with categories_matched := some [] }) ∧
    (∀ (d : Str) (fd : Option Str) (sf : Str) (g : Nat) (it : RawItem)
       (r : CatalystDisclosure),
       it.text = some none → buildAnnualItem d fd sf g it = some r →
       r.text = []) ∧
    cleanText (some ("  first line \n\n\t second  line ".toList)) =
      "first line second  line".toList := by
  refine ⟨fun d fd sf g => rfl, fun d fd sf g => rfl,
    fun d fd sf g it h => by simp [buildAnnualItem, h, rawText],
    fun d fd sf g it h => by simp [buildAnnualItem, h, rawText],
    fun d fd sf g it h => by simp [buildAnnualItem, rawText, h],
    fun d fd sf g it h => by simp [buildAnnualItem, h, rawText],
    fun d fd sf g it h => by simp [buildAnnualItem, h, rawText],
    fun d fd sf g it r htext h => ?_, by decide⟩
  unfold buildAnnualItem at h
  repeat' split at h
  all_goals try exact Option.noConfusion h
  have hr := mkCatalystDisclosure_eq_some h
  subst hr
  simp [rawText, htext, cleanText]

/-- Witness for C10: the missing-tone default equation applied at a
concrete item, and a null-text item emitted with empty text. -/
theorem c10_witness :
    buildAnnualItem [] none [] 2 {} =
      buildAnnualItem [] none [] 2 { tone := some (some ("neutral".toList)) } ∧
    buildAnnualItem [] none [] 2 { text := some none } = some
      { doc_id := [], exchange := "ASX".toList, filing_type := .ASX_ANNUAL,
        filing_date := none, source_file := some [], sentence_id := sId 2,
        text := [], forward_looking := true, forecast_type := .HINTS,
        tone := .NEUTRAL, impact := .MED, score := 5,
        categories_matched := [], entities := [],
        flag := some ("ok".toList) } :=
  ⟨c10_silent_defaults.2.2.1 [] none [] 2 {} rfl,
   by
     have := c10_silent_defaults.2.2.2.2.2.2.2.1 [] none [] 2
       { text := some none }
     decide⟩

/-! ## JSON block extraction (base_extractor.py 98-124) -/

/-- One pass of `re.sub(r",\s*C", "C", s)` for a closing bracket `C`:
scan left to right; at a comma followed by optional whitespace and the
closer, emit the closer and continue after it (a match cannot end before
the whitespace run ends, since the closer is not whitespace). `fuel`
bounds the recursion and is always called with `s.length`, which
suffices because every step consumes at least one character. -/
def subTrailFuel (close : Char) : Nat → Str → Str
  | 0, s => s
  | _ + 1, [] => []
  | f + 1, c :: rest =>
    if c = ',' then
      match rest.dropWhile isPySpace with
      | c2 :: rest2 =>
        if c2 = close then close :: subTrailFuel close f rest2
        else c :: subTrailFuel close f rest
      | [] => c :: subTrailFuel close f rest
    else c :: subTrailFuel close f rest

/-- `re.sub(r",\s*C", "C", s)`. -/
def subTrail (close : Char) (s : Str) : Str := subTrailFuel close s.length s

/-- `str.find(c)`: index of the first occurrence, if any. -/
def pyFindIdx (c : Char) (s : Str) : Option Nat := s.findIdx? (fun x => x = c)

/-- `str.rfind(c)`: index of the last occurrence, if any. -/
def pyRFindIdx (c : Char) (s : Str) : Option Nat :=
  match s.reverse.findIdx? (fun x => x = c) with
  | none => none
  | some i => some (s.length - 1 - i)

/-- The `^```json` alternative of the fence regex (case-insensitive,
anchored at the start). -/
def fenceStripA (s : Str) : Str :=
  if pyLower (s.take 7) = "```json".toList then s.drop 7 else s

/-- The ` ```$ ` alternative of the fence regex (anchored at the end). -/
def fenceStripB (s : Str) : Str :=
  if ("```".toList).isSuffixOf s then s.take (s.length - 3) else s

/-- `re.sub(r"^```json|```$", "", s, flags=IGNORECASE)`. -/
def fenceStrip (s : Str) : Str := fenceStripB (fenceStripA s)

/-- `BaseExtractor._extract_json_block`: strip, remove fences, slice from
the first `[` to the last `]`, then repair trailing commas before `}`
and `]`. -/
def extractJsonBlock (text : Str) : Option Str :=
  if text.isEmpty then none
  else
    let cleaned := fenceStrip (pyStrip text)
    match pyFindIdx '[' cleaned, pyRFindIdx ']' cleaned with
    | some s, some e =>
      some (subTrail ']' (subTrail '}' ((cleaned.drop s).take (e + 1 - s))))
    | some _, none => none
    | none, _ => none

/-- `BaseExtractor._safe_json_load`, abstracting `json.loads` as `parse`
(returning `none` where `json.loads` raises). -/
def safeJsonLoad (parse : Str → Option (List RawItem)) :
    Option Str → Option (List RawItem)
  | none => none
  | some s => if s.isEmpty then none else parse s

/-- `items = self._safe_json_load(self._extract_json_block(resp)) or []`
(asx_annual.py 290-291 and the same two lines in the other variants). -/
def loadItems (parse : Str → Option (List RawItem)) (resp : Str) :
    List RawItem :=
  match safeJsonLoad parse (extractJsonBlock resp) with
  | none => []
  | some items => items

/-- A response consisting of a JSON payload wrapped in ```json code
fences: ` ```json\n<s>\n``` `. -/
def fenceWrap (s : Str) : Str :=
  '`' :: '`' :: '`' :: 'j' :: 's' :: 'o' :: 'n' :: '\n' ::
    (s ++ '\n' :: '`' :: '`' :: '`' :: [])

/-! ### JSON extraction lemmas -/

theorem mem_of_mem_pyStrip {c : Char} {s : Str} (h : c ∈ pyStrip s) : c ∈ s := by
  unfold pyStrip pyStripRight pyStripLeft at h
  rw [List.mem_reverse] at h
  have h2 := (List.dropWhile_sublist _).subset h
  rw [List.mem_reverse] at h2
  exact (List.dropWhile_sublist _).subset h2

theorem mem_of_mem_fenceStrip {c : Char} {s : Str} (h : c ∈ fenceStrip s) :
    c ∈ s := by
  unfold fenceStrip fenceStripB at h
  split at h
  case isTrue _ =>
    have h1 := List.mem_of_mem_take h
    unfold fenceStripA at h1
    split at h1
    · exact List.mem_of_mem_drop h1
    · exact h1
  case isFalse _ =>
    unfold fenceStripA at h
    split at h
    · exact List.mem_of_mem_drop h
    · exact h

theorem extractJsonBlock_no_bracket {text : Str}
    (h : '[' ∉ text ∨ ']' ∉ text) : extractJsonBlock text = none := by
  unfold extractJsonBlock
  split
  · rfl
  · rcases h with h | h
    · have hfind : pyFindIdx '[' (fenceStrip (pyStrip text)) = none := by
        unfold pyFindIdx
        rw [List.findIdx?_eq_none_iff]
        intro x hx
        have hxin : x ∈ text := mem_of_mem_pyStrip (mem_of_mem_fenceStrip hx)
        exact decide_eq_false (fun hxeq => h (hxeq ▸ hxin))
      simp only [hfind]
    · have hrfind : pyRFindIdx ']' (fenceStrip (pyStrip text)) = none := by
        unfold pyRFindIdx
        have hnone : (fenceStrip (pyStrip text)).reverse.findIdx?
            (fun x => x = ']') = none := by
          rw [List.findIdx?_eq_none_iff]
          intro x hx
          rw [List.mem_reverse] at hx
          have hxin : x ∈ text := mem_of_mem_pyStrip (mem_of_mem_fenceStrip hx)
          exact decide_eq_false (fun hxeq => h (hxeq ▸ hxin))
        rw [hnone]
      cases hf : pyFindIdx '[' (fenceStrip (pyStrip text)) <;>
        simp [hf, hrfind]

theorem pyStripLeft_eq_self {s : Str} {a : Char}
    (hh : s.head? = some a) (ha : isPySpace a = false) : pyStripLeft s = s := by
  cases s with
  | nil => rfl
  | cons x xs =>
    simp only [List.head?_cons, Option.some.injEq] at hh
    subst hh
    simp [pyStripLeft, List.dropWhile_cons, ha]

theorem pyStripRight_eq_self {s : Str} {b : Char}
    (hl : s.getLast? = some b) (hb : isPySpace b = false) : pyStripRight s = s := by
  unfold pyStripRight
  obtain ⟨u, hu⟩ : ∃ u, s.reverse = b :: u := by
    cases hr : s.reverse with
    | nil =>
      rw [← List.head?_reverse, hr] at hl
      simp at hl
    | cons x xs =>
      rw [← List.head?_reverse, hr] at hl
      simp only [List.head?_cons, Option.some.injEq] at hl
      exact ⟨xs, by rw [hl]⟩
  rw [hu, List.dropWhile_cons]
  simp only [hb, Bool.false_eq_true, if_false]
  rw [← hu, List.reverse_reverse]

theorem pyStrip_eq_self {s : Str} {a b : Char}
    (hh : s.head? = some a) (ha : isPySpace a = false)
    (hl : s.getLast? = some b) (hb : isPySpace b = false) : pyStrip s = s := by
  unfold pyStrip
  rw [pyStripLeft_eq_self hh ha, pyStripRight_eq_self hl hb]

theorem fenceStripA_eq_self {s : Str} {Jt : Str} (hs : s = '[' :: Jt) :
    fenceStripA s = s := by
  subst hs
  unfold fenceStripA
  rw [if_neg]
  intro hcontra
  have hhd := congrArg List.head? hcontra
  simp [pyLower, List.take_cons] at hhd

theorem fenceStripB_eq_self {s : Str} {Jr : Str} (hrev : s.reverse = ']' :: Jr) :
    fenceStripB s = s := by
  unfold fenceStripB
  rw [if_neg]
  intro hcontra
  unfold List.isSuffixOf at hcontra
  rw [hrev] at hcontra
  simp [List.isPrefixOf] at hcontra

theorem extractJsonBlock_plain {J Jt Jr : Str}
    (hJ : J = '[' :: Jt) (hrev : J.reverse = ']' :: Jr) :
    extractJsonBlock J = some (subTrail ']' (subTrail '}' J)) := by
  have hstrip : pyStrip J = J := by
    apply pyStrip_eq_self (a := '[') (b := ']')
    · rw [hJ]; rfl
    · decide
    · rw [← List.head?_reverse, hrev]; rfl
    · decide
  have hA : fenceStripA J = J := fenceStripA_eq_self hJ
  have hB : fenceStripB J = J := fenceStripB_eq_self hrev
  have hfind : pyFindIdx '[' J = some 0 := by
    rw [hJ]
    simp [pyFindIdx, List.findIdx?_cons]
  have hrfind : pyRFindIdx ']' J = some (J.length - 1) := by
    unfold pyRFindIdx
    rw [hrev]
    simp [List.findIdx?_cons]
  have hlen : 1 ≤ J.length := by rw [hJ]; simp
  unfold extractJsonBlock
  rw [if_neg (by rw [hJ]; simp)]
  simp only [fenceStrip, hstrip, hA, hB, hfind, hrfind]
  have harith : J.length - 1 + 1 - 0 = J.length := by omega
  rw [List.drop_zero, harith, List.take_length]

theorem extractJsonBlock_fenced {J Jt Jr : Str}
    (hJ : J = '[' :: Jt) (hrev : J.reverse = ']' :: Jr) :
    extractJsonBlock (fenceWrap J) = some (subTrail ']' (subTrail '}' J)) := by
  have hstrip : pyStrip (fenceWrap J) = fenceWrap J := by
    apply pyStrip_eq_self (a := '`') (b := '`')
    · rfl
    · decide
    · rw [← List.head?_reverse]
      unfold fenceWrap
      simp [List.reverse_append]
    · decide
  have hA : fenceStripA (fenceWrap J) =
      '\n' :: (J ++ '\n' :: '`' :: '`' :: '`' :: []) := by
    have hcondA : pyLower (('`' :: '`' :: '`' :: 'j' :: 's' :: 'o' :: 'n' ::
        '\n' :: (J ++ '\n' :: '`' :: '`' :: '`' :: [])).take 7) =
        "```json".toList := rfl
    unfold fenceStripA fenceWrap
    rw [if_pos hcondA]
    rfl
  have hB : fenceStripB ('\n' :: (J ++ '\n' :: '`' :: '`' :: '`' :: [])) =
      '\n' :: (J ++ ['\n']) := by
    have hcond : (("```".toList).isSuffixOf
        ('\n' :: (J ++ '\n' :: '`' :: '`' :: '`' :: []))) = true := by
      unfold List.isSuffixOf
      simp [List.reverse_append, List.isPrefixOf]
    unfold fenceStripB
    rw [if_pos hcond]
    have hlen : ('\n' :: (J ++ '\n' :: '`' :: '`' :: '`' :: [])).length - 3 =
        J.length + 2 := by simp
    rw [hlen]
    have hsplit : '\n' :: (J ++ '\n' :: '`' :: '`' :: '`' :: []) =
        ('\n' :: (J ++ ['\n'])) ++ ['`', '`', '`'] := by simp
    rw [hsplit]
    have hlen2 : J.length + 2 = ('\n' :: (J ++ ['\n'])).length := by simp
    rw [hlen2, List.take_left]
  have hfind : pyFindIdx '[' ('\n' :: (J ++ ['\n'])) = some 1 := by
    rw [hJ]
    simp [pyFindIdx, List.findIdx?_cons]
  have hrfind : pyRFindIdx ']' ('\n' :: (J ++ ['\n'])) = some J.length := by
    unfold pyRFindIdx
    have hrev2 : ('\n' :: (J ++ ['\n'])).reverse = '\n' :: ']' :: (Jr ++ ['\n']) := by
      simp [List.reverse_append, hrev]
    rw [hrev2]
    simp [List.findIdx?_cons]
  unfold extractJsonBlock
  rw [if_neg (by simp [fenceWrap])]
  simp only [fenceStrip, hstrip, hA, hB, hfind, hrfind]
  have harith : J.length + 1 - 1 = J.length := by omega
  rw [harith]
  have hdrop : (('\n' :: (J ++ ['\n'])).drop 1) = J ++ ['\n'] := rfl
  rw [hdrop, List.take_left]

/-- C3: (a) a response containing no `[` or no `]` yields an empty item
list for that batch, with no exception; (b) a response that is a JSON
array (first char `[`, last char `]`) wrapped in ```json code fences
and/or containing trailing commas immediately before `]`/`}` is carried —
through fence stripping, block slicing and comma repair — to exactly its
clean unfenced comma-free equivalent, so any JSON parser (in the source,
`json.loads`) yields the same item list for both. -/
theorem c3_json_repair :
    (∀ (parse : Str → Option (List RawItem)) (resp : Str),
       ('[' ∉ resp ∨ ']' ∉ resp) → loadItems parse resp = []) ∧
    (∀ (parse : Str → Option (List RawItem)) (J' J Jt' Jr' Jt Jr : Str),
       J' = '[' :: Jt' → J'.reverse = ']' :: Jr' →
       J = '[' :: Jt → J.reverse = ']' :: Jr →
       subTrail ']' (subTrail '}' J') = J →
       subTrail ']' (subTrail '}' J) = J →
       loadItems parse (fenceWrap J') = loadItems parse J ∧
       loadItems parse J' = loadItems parse J) := by
  constructor
  · intro parse resp h
    unfold loadItems
    rw [extractJsonBlock_no_bracket h]
    rfl
  · intro parse J' J Jt' Jr' Jt Jr hJ' hrev' hJ hrev hrep hclean
    have h1 : extractJsonBlock (fenceWrap J') = some J := by
      rw [extractJsonBlock_fenced hJ' hrev', hrep]
    have h2 : extractJsonBlock J' = some J := by
      rw [extractJsonBlock_plain hJ' hrev', hrep]
    have h3 : extractJsonBlock J = some J := by
      rw [extractJsonBlock_plain hJ hrev, hclean]
    constructor
    · unfold loadItems
      rw [h1, h3]
    · unfold loadItems
      rw [h2, h3]

/-- Witness for C3: the fenced, trailing-comma response
` ```json\n[1, 2,]\n``` ` yields the same items as the clean `[1, 2]`,
and a bracket-free response yields the empty list. -/
theorem c3_witness :
    loadItems (fun _ => none) (fenceWrap ("[1, 2,]".toList)) =
      loadItems (fun _ => none) ("[1, 2]".toList) ∧
    loadItems (fun _ => none) ("no brackets here".toList) = [] :=
  ⟨(c3_json_repair.2 (fun _ => none) ("[1, 2,]".toList) ("[1, 2]".toList)
      ("1, 2,]".toList) (",2 ,1[".toList) ("1, 2]".toList) ("2 ,1[".toList)
      (by decide) (by decide) (by decide) (by decide) (by decide)
      (by decide)).1,
   c3_json_repair.1 (fun _ => none) ("no brackets here".toList)
     (Or.inl (by decide))⟩

/-! ## SEC candidate prefilter (sec_10q.py 93-102) -/

/-- The retention test of `SECExtractor._extract_candidates` on a
stripped sentence: `s and len(s) > 20 and keyword_processor.extract_keywords(s)`
(the keyword matcher is abstracted as `kw`). -/
def secKeep (kw : Str → Bool) (s : Str) : Prop :=
  s ≠ [] ∧ 20 < s.length ∧ kw s = true

instance (kw : Str → Bool) (s : Str) : Decidable (secKeep kw s) :=
  inferInstanceAs (Decidable (s ≠ [] ∧ 20 < s.length ∧ kw s = true))

/-- The candidate loop of `SECExtractor._extract_candidates`: strip each
sentence, keep it when it passes `secKeep` and has not been seen, and add
kept sentences to `seen`. -/
def secCandidatesAux (kw : Str → Bool) (seen : List Str) :
    List Str → List Str
  | [] => []
  | sent :: rest =>
    let s := pyStrip sent
    if secKeep kw s ∧ s ∉ seen then
      s :: secCandidatesAux kw (s :: seen) rest
    else
      secCandidatesAux kw seen rest

/-- `SECExtractor._extract_candidates` over the sentence list produced by
the sentencizer. -/
def secCandidates (kw : Str → Bool) (sents : List Str) : List Str :=
  secCandidatesAux kw [] sents

/-- Spec-side retention test as the claim words it: a minimum sentence
length of 20 characters (so 20-character sentences meet the minimum). -/
def specSecKeep (kw : Str → Bool) (s : Str) : Prop :=
  s ≠ [] ∧ 20 ≤ s.length ∧ kw s = true

instance (kw : Str → Bool) (s : Str) : Decidable (specSecKeep kw s) :=
  inferInstanceAs (Decidable (s ≠ [] ∧ 20 ≤ s.length ∧ kw s = true))

/-- Spec-side filter: identical loop with the claim's 20-character
minimum. -/
def specSecCandidatesAux (kw : Str → Bool) (seen : List Str) :
    List Str → List Str
  | [] => []
  | sent :: rest =>
    let s := pyStrip sent
    if specSecKeep kw s ∧ s ∉ seen then
      s :: specSecCandidatesAux kw (s :: seen) rest
    else
      specSecCandidatesAux kw seen rest

/-- Spec-side filter over a sentence list. -/
def specSecCandidates (kw : Str → Bool) (sents : List Str) : List Str :=
  specSecCandidatesAux kw [] sents

theorem secCandidatesAux_eq (kw : Str → Bool) :
    ∀ (seen : List Str) (sents : List Str),
      secCandidatesAux kw seen sents =
        dedupeFirstAux seen
          ((sents.map pyStrip).filter (fun s => decide (secKeep kw s)))
  | seen, [] => rfl
  | seen, sent :: rest => by
    simp only [secCandidatesAux, List.map_cons, List.filter_cons]
    by_cases hkeep : secKeep kw (pyStrip sent)
    · rw [decide_eq_true hkeep, if_pos rfl]
      by_cases hseen : pyStrip sent ∈ seen
      · rw [if_neg (by simp [hseen])]
        rw [dedupeFirstAux, if_pos (List.elem_eq_true_of_mem hseen)]
        exact secCandidatesAux_eq kw seen rest
      · rw [if_pos ⟨hkeep, hseen⟩]
        rw [dedupeFirstAux]
        rw [if_neg (fun hc => hseen (List.mem_of_elem_eq_true hc))]
        rw [secCandidatesAux_eq kw (pyStrip sent :: seen) rest]
    · rw [decide_eq_false hkeep]
      rw [if_neg (fun h => hkeep h.1)]
      rw [if_neg (show ¬(false = true) by simp)]
      exact secCandidatesAux_eq kw seen rest

/-- C9 (counterexample): the 20-character keyword sentence
"FDA approval pending" meets the claimed 20-character minimum but the
code's strict `len(s) > 20` excludes it: the code yields no candidate
while the spec-side filter retains it. -/
theorem c9_counterexample :
    secCandidates (fun s => hasSubSeq ("approval".toList) (pyLower s))
        ["FDA approval pending".toList] = [] ∧
    specSecCandidates (fun s => hasSubSeq ("approval".toList) (pyLower s))
        ["FDA approval pending".toList] = ["FDA approval pending".toList] ∧
    ("FDA approval pending".toList).length = 20 := by
  refine ⟨?_, ?_, by decide⟩ <;> decide

/-- C9 (amended): the SEC prefilter retains a stripped sentence iff it is
non-empty, matches the keyword dictionary, is a first occurrence (order
preserved), and is strictly longer than 20 characters (at least 21);
equivalently, the loop equals first-occurrence deduplication of the
kept-filtered stripped sentences. -/
theorem c9_sec_prefilter (kw : Str → Bool) (sents : List Str) :
    secCandidates kw sents =
      dedupeFirst ((sents.map pyStrip).filter (fun s => decide (secKeep kw s))) :=
  secCandidatesAux_eq kw [] sents

/-! ## Strategy registry and dispatcher (extractors/registry.py 8-27,
pipeline/dispatcher.py 10-39) -/

/-- The four registered extractor classes. -/
inductive ExtractorClass
  | ASXAnnualExtractor
  | ASXQuarterlyExtractor
  | ASXInvestorExtractor
  | SECExtractor
deriving DecidableEq, Repr

/-- `EXTRACTOR_REGISTRY`. The keys pair the exchange with the FilingType
member; a `str`-mixin enum member hashes and compares as its string value,
so the second component is that value ("annual", "quarterly", "investor",
"SEC_10Q"). -/
def EXTRACTOR_REGISTRY : List ((Str × Str) × ExtractorClass) :=
  [(("ASX".toList, "annual".toList), .ASXAnnualExtractor),
   (("ASX".toList, "quarterly".toList), .ASXQuarterlyExtractor),
   (("ASX".toList, "investor".toList), .ASXInvestorExtractor),
   (("SEC".toList, "SEC_10Q".toList), .SECExtractor)]

/-- `registry.get_extractor`: upper-case the exchange, look the pair up in
the registry, raise `KeyError` when the key is absent. -/
def get_extractor (exchange ft : Str) : Except Str ExtractorClass :=
  match EXTRACTOR_REGISTRY.find? (fun e => e.1 == (pyUpper exchange, ft)) with
  | some e => .ok e.2
  | none => .error ("KeyError".toList)

/-- The dispatcher's synonym table (`mapping`). -/
def synonymMap (s : Str) : Option Str :=
  if s = "ANNUAL".toList then some ("annual".toList)
  else if s = "ASX_ANNUAL".toList then some ("annual".toList)
  else if s = "QUARTERLY".toList then some ("quarterly".toList)
  else if s = "ASX_QUARTERLY".toList then some ("quarterly".toList)
  else if s = "INVESTOR_PRESENTATION".toList then some ("investor".toList)
  else if s = "INVESTOR".toList then some ("investor".toList)
  else if s = "10-Q".toList then some ("10-Q".toList)
  else if s = "10Q".toList then some ("10-Q".toList)
  else none

/-- `pipeline.dispatcher.get_extractor_instance`: normalize the filing
type via `mapping.get(ft.upper(), ft)`, then delegate to the registry;
a `KeyError` is logged and re-raised unchanged. -/
def get_extractor_instance (exchange filing_type : Str) :
    Except Str ExtractorClass :=
  get_extractor (pyUpper exchange)
    ((synonymMap (pyUpper filing_type)).getD filing_type)

/-- C8: the ASX synonyms ("ANNUAL"/"ASX_ANNUAL"/"annual"/"Annual", the
quarterly and investor synonyms) all resolve to the registered extractor,
and an unknown key raises immediately — but the claimed 10-Q synonyms do
NOT resolve: the dispatcher normalizes "10-Q"/"10Q" to the key "10-Q"
while the registry registers the SEC extractor under "SEC_10Q"
(`FilingType.SEC_10Q`'s value), so dispatch raises `KeyError`; only the
exact string "SEC_10Q" (left untouched by the synonym table) reaches the
SEC extractor. The code contradicts its own synonym table, confirming the
claim as a code bug at input ("SEC", "10-Q"). -/
theorem c8_dispatch :
    get_extractor_instance ("ASX".toList) ("ANNUAL".toList) =
      .ok .ASXAnnualExtractor ∧
    get_extractor_instance ("ASX".toList) ("ASX_ANNUAL".toList) =
      .ok .ASXAnnualExtractor ∧
    get_extractor_instance ("ASX".toList) ("annual".toList) =
      .ok .ASXAnnualExtractor ∧
    get_extractor_instance ("asx".toList) ("Annual".toList) =
      .ok .ASXAnnualExtractor ∧
    get_extractor_instance ("ASX".toList) ("QUARTERLY".toList) =
      .ok .ASXQuarterlyExtractor ∧
    get_extractor_instance ("ASX".toList) ("ASX_QUARTERLY".toList) =
      .ok .ASXQuarterlyExtractor ∧
    get_extractor_instance ("ASX".toList) ("INVESTOR".toList) =
      .ok .ASXInvestorExtractor ∧
    get_extractor_instance ("ASX".toList) ("INVESTOR_PRESENTATION".toList) =
      .ok .ASXInvestorExtractor ∧
    get_extractor_instance ("ASX".toList) ("unknown_type".toList) =
      .error ("KeyError".toList) ∧
    get_extractor_instance ("SEC".toList) ("10-Q".toList) =
      .error ("KeyError".toList) ∧
    get_extractor_instance ("SEC".toList) ("10Q".toList) =
      .error ("KeyError".toList) ∧
    get_extractor_instance ("SEC".toList) ("SEC_10Q".toList) =
      .ok .SECExtractor :=
  ⟨rfl, rfl, rfl, rfl, rfl, rfl, rfl, rfl, rfl, rfl, rfl, rfl⟩

end BatchDisclosure
